import Mathlib

/-!
Shallow embedding of `src/Database/normalize_data.py` (`DataNormalizer.process_csv`),
the normalization engine of the ICNvictoria repository, together with proofs of the
behavioural properties claimed for it.

Python strings are modelled as `String` (a list of unicode code points), Python
`None`-or-value fields as `Option`, Python dicts as insertion-ordered association
lists with unique keys, and Python floats as `Rat` (no claim here depends on
floating-point rounding; only parse success/failure and zero-versus-nonzero matter).
-/

namespace ICN

/-! ### Python string primitives -/

/-- Whitespace characters removed by Python `str.strip()` (the ASCII ones;
the data contains no exotic unicode whitespace). -/
def isPySpace (c : Char) : Bool :=
  c = ' ' ∨ c = '\t' ∨ c = '\n' ∨ c = '\x0d' ∨ c = '\x0b' ∨ c = '\x0c'

/-- Strip on the underlying character list: drop leading and trailing whitespace. -/
def stripChars (l : List Char) : List Char :=
  ((l.dropWhile isPySpace).reverse.dropWhile isPySpace).reverse

/-- Python `str.strip()`. -/
def pyStrip (s : String) : String :=
  ⟨stripChars s.data⟩

/-- Python `str.upper()` on one character (ASCII range; organisation identifiers
in the dataset are ASCII). -/
def upperChar (c : Char) : Char :=
  if 97 ≤ c.toNat ∧ c.toNat ≤ 122 then Char.ofNat (c.toNat - 32) else c

/-- Python `str.upper()`. -/
def pyUpper (s : String) : String :=
  ⟨s.data.map upperChar⟩

/-- Python `row.get(col, '').strip() or None`: a blank cell becomes `None`. -/
def strOrNone (s : String) : Option String :=
  let t := pyStrip s
  if t = "" then none else some t

/-- Python truthiness of a value that is either `None` or a string. -/
def optTruthy : Option String → Bool
  | none => false
  | some s => s ≠ ""

/-- Python truthiness of a value that is either `None` or a float
(`0.0` is falsy, like `None`). -/
def coordTruthy : Option Rat → Bool
  | none => false
  | some q => q ≠ 0

/-! ### Python `float()` on decimal literals -/

def isDigitChar (c : Char) : Bool :=
  48 ≤ c.toNat ∧ c.toNat ≤ 57

/-- Numeric value of a digit string. -/
def digitsVal (l : List Char) : Nat :=
  l.foldl (fun a c => a * 10 + (c.toNat - 48)) 0

/-- Powers of ten (`Nat.pow`, which the kernel evaluates natively). -/
def pow10 (n : Nat) : Nat :=
  10 ^ n

/-- CPython `float(s)` restricted to finite decimal literals
`[sign] (digits [. digits] | . digits) [(e|E) [sign] digits]`, the only shapes the
coordinate columns can carry (`inf`/`nan`/hex/grouping underscores do not occur);
any other string raises `ValueError`, modelled as `none`.  The value is kept exact
as a rational: no claim depends on binary rounding. -/
def pyFloat (s : String) : Option Rat :=
  let cs := s.data
  let (neg, cs1) : Bool × List Char :=
    match cs with
    | '+' :: rest => (false, rest)
    | '-' :: rest => (true, rest)
    | _ => (false, cs)
  let intPart := cs1.takeWhile isDigitChar
  let cs2 := cs1.dropWhile isDigitChar
  let (fracPart, cs3) : List Char × List Char :=
    match cs2 with
    | '.' :: rest => (rest.takeWhile isDigitChar, rest.dropWhile isDigitChar)
    | _ => ([], cs2)
  if intPart.length + fracPart.length = 0 then none
  else
    let mantNat : Nat := digitsVal intPart * pow10 fracPart.length + digitsVal fracPart
    let mant : Int := if neg then -(mantNat : Int) else (mantNat : Int)
    match cs3 with
    | [] => some (mkRat mant (pow10 fracPart.length))
    | 'e' :: rest | 'E' :: rest =>
      let (eneg, rest1) : Bool × List Char :=
        match rest with
        | '+' :: r2 => (false, r2)
        | '-' :: r2 => (true, r2)
        | _ => (false, rest)
      let eds := rest1.takeWhile isDigitChar
      let rest2 := rest1.dropWhile isDigitChar
      if eds.length = 0 ∨ rest2 ≠ [] then none
      else if eneg then some (mkRat mant (pow10 fracPart.length * pow10 (digitsVal eds)))
      else some (mkRat (mant * ((pow10 (digitsVal eds) : Nat) : Int)) (pow10 fracPart.length))
    | _ => none

/-- Lines 96-107 of `normalize_data.py`: parse the two coordinate cells inside one
`try` block with a single `except (ValueError, TypeError): pass` handler.
`latitude` and `longitude` start as `None`; latitude is converted first, so a
conversion failure on the latitude string leaves both as `None`, and a failure on
the longitude string leaves only the longitude as `None`.  The pass never aborts:
this is a total function. -/
def parseCoordinates (latRaw lonRaw : String) : Option Rat × Option Rat :=
  let lat_str := pyStrip latRaw
  let lon_str := pyStrip lonRaw
  if lat_str ≠ "" then
    match pyFloat lat_str with
    | none => (none, none)
    | some la =>
      if lon_str ≠ "" then
        match pyFloat lon_str with
        | none => (some la, none)
        | some lo => (some la, some lo)
      else (some la, none)
  else
    if lon_str ≠ "" then
      match pyFloat lon_str with
      | none => (none, none)
      | some lo => (none, some lo)
    else (none, none)

/-! ### Validation-date normalization -/

/-- Python `c in s` for a single character `c` (substring membership). -/
def containsChar (s : String) (c : Char) : Bool :=
  s.data.contains c

/-- Python `s.split(sep)` for a one-character separator (never returns `[]`;
the empty string splits to `[[]]`). -/
def splitOnChar (l : List Char) (sep : Char) : List (List Char) :=
  match l with
  | [] => [[]]
  | c :: rest =>
    let r := splitOnChar rest sep
    if c = sep then [] :: r
    else
      match r with
      | h :: t => (c :: h) :: t
      | [] => [[c]]

def allDigits (l : List Char) : Bool :=
  l.all isDigitChar

def isLeapYear (y : Nat) : Bool :=
  y % 4 = 0 ∧ (y % 100 ≠ 0 ∨ y % 400 = 0)

def daysInMonth (y m : Nat) : Nat :=
  if m = 2 then (if isLeapYear y then 29 else 28)
  else if m = 4 ∨ m = 6 ∨ m = 9 ∨ m = 11 then 30
  else 31

/-- CPython `datetime.strptime(t, '%d/%m/%Y')`: day and month are 1 or 2 digits
(values capped by the calendar), the year exactly 4 digits, separators literal
slashes, the whole string consumed; an invalid calendar date (e.g. 31/02) raises
`ValueError` from the `datetime` constructor.  `none` models the raised error. -/
def parseDMY (t : String) : Option (Nat × Nat × Nat) :=
  match splitOnChar t.data '/' with
  | [ds, ms, ys] =>
    if allDigits ds ∧ 1 ≤ ds.length ∧ ds.length ≤ 2 ∧
       allDigits ms ∧ 1 ≤ ms.length ∧ ms.length ≤ 2 ∧
       allDigits ys ∧ ys.length = 4 then
      let d := digitsVal ds
      let m := digitsVal ms
      let y := digitsVal ys
      if 1 ≤ d ∧ 1 ≤ m ∧ m ≤ 12 ∧ 1 ≤ y ∧ d ≤ daysInMonth y m then
        some (d, m, y)
      else none
    else none
  | _ => none

/-- Zero-pad to two digits, as `strftime` does for `%m` and `%d`. -/
def pad2 (n : Nat) : String :=
  if n < 10 then "0" ++ toString n else toString n

/-- The `strftime('%Y-%m-%d')` rendering of a parsed date (`%Y` unpadded, as glibc
renders it; every year accepted here in practice has 4 digits). -/
def toIso (d m y : Nat) : String :=
  toString y ++ "-" ++ pad2 m ++ "-" ++ pad2 d

/-- Lines 83-94 of `normalize_data.py`: normalize the `Validation Date` cell.
A blank cell yields `None`; a cell containing a slash is parsed as `%d/%m/%Y` and
reformatted as `%Y-%m-%d`, with a parse failure caught and turned into `None`;
a non-blank cell without a slash is passed through verbatim. -/
def normalizeValidationDate (raw : String) : Option String :=
  let date_str := pyStrip raw
  if date_str = "" then none
  else if containsChar date_str '/' then
    match parseDMY date_str with
    | some (d, m, y) => some (toIso d m y)
    | none => none
  else some date_str

/-! ### Python dict as insertion-ordered association list -/

/-- Python `d[k] = v`: replace the value at an existing key in place, else append. -/
def dictInsert {α : Type} (m : List (String × α)) (k : String) (v : α) : List (String × α) :=
  match m with
  | [] => [(k, v)]
  | (k1, v1) :: rest => if k1 = k then (k, v) :: rest else (k1, v1) :: dictInsert rest k v

/-- Python `d.get(k)` / `k in d`. -/
def dictGet {α : Type} (m : List (String × α)) (k : String) : Option α :=
  match m with
  | [] => none
  | (k1, v1) :: rest => if k1 = k then some v1 else dictGet rest k

/-! ### Data model: the five entity collections -/

/-- One CSV row, by column.  `detailedItemIdBomCol` models the
`'﻿Detailed Item ID  ↓'` header variant and `detailedItemIdCol` the BOM-free
one; `process_csv` coalesces them with Python `or` (line 45).  A column missing
from the file reads as `''` through `row.get(col, '')`. -/
structure Row where
  organisationIdCol : String := ""
  itemIdCol : String := ""
  itemNameCol : String := ""
  detailedItemIdBomCol : String := ""
  detailedItemIdCol : String := ""
  detailedItemNameCol : String := ""
  sectorMappingIdCol : String := ""
  sectorNameCol : String := ""
  organisationNameCol : String := ""
  billingStreetCol : String := ""
  billingCityCol : String := ""
  billingStateProvinceCol : String := ""
  billingZipPostalCodeCol : String := ""
  formattedAddressCol : String := ""
  latitudeCol : String := ""
  longitudeCol : String := ""
  organisationCapabilityCol : String := ""
  capabilityTypeCol : String := ""
  validationDateCol : String := ""
  deriving DecidableEq

structure Organisation where
  organisationId : String
  organisationName : Option String
  billingStreet : Option String
  billingCity : Option String
  billingStateProvince : Option String
  billingZipPostalCode : Option String
  formattedAddress : Option String
  latitude : Option Rat
  longitude : Option Rat
  deriving DecidableEq

structure DetailedItem where
  detailedItemName : String
  itemId : Option String
  deriving DecidableEq

structure Capability where
  organisationCapability : String
  organisationId : String
  itemId : Option String
  detailedItemId : Option String
  capabilityType : Option String
  validationDate : Option String
  sectorMappingId : Option String
  deriving DecidableEq

/-- The mutable state of `DataNormalizer` plus the two carry-forward locals of
`process_csv` (`current_detailed_item_id`, `current_sector_mapping_id`). -/
structure NormState where
  items : List (String × String) := []
  detailed_items : List (String × DetailedItem) := []
  sectors : List (String × String) := []
  organisations : List (String × Organisation) := []
  capabilities : List Capability := []
  current_detailed_item_id : Option String := none
  current_sector_mapping_id : Option String := none
  deriving DecidableEq

def initState : NormState := {}

/-! ### Per-row derived values (the locals of the loop body) -/

def rowItemId (r : Row) : String := pyStrip r.itemIdCol

def rowItemName (r : Row) : String := pyStrip r.itemNameCol

/-- Line 45-46: `(row.get(BOM col, '') or row.get(plain col, '')).strip()`. -/
def detailedRaw (r : Row) : String :=
  pyStrip (if r.detailedItemIdBomCol ≠ "" then r.detailedItemIdBomCol else r.detailedItemIdCol)

def rowDetailedName (r : Row) : String := pyStrip r.detailedItemNameCol

def rowSectorRaw (r : Row) : String := pyStrip r.sectorMappingIdCol

def rowSectorName (r : Row) : String := pyStrip r.sectorNameCol

def rowOrgIdRaw (r : Row) : String := pyStrip r.organisationIdCol

/-- Line 81: organisation id normalized to upper case. -/
def rowOrgId (r : Row) : String := pyUpper (rowOrgIdRaw r)

def rowCapLabel (r : Row) : String := pyStrip r.organisationCapabilityCol

/-- A row survives the skip rule of lines 35-36 (`row.get(...)` falsy, or blank
after strip — both collapse to a blank stripped value). -/
def processedP (r : Row) : Bool := rowOrgIdRaw r ≠ ""

/-- Line 50: a non-blank, non-sentinel detailed-item cell starts a new group. -/
def startsDetailedGroup (r : Row) : Bool :=
  processedP r ∧ detailedRaw r ≠ "" ∧ detailedRaw r ≠ "Subtotal"

/-- Line 67: any non-blank sector cell starts a new group (no sentinel check). -/
def startsSectorGroup (r : Row) : Bool :=
  processedP r ∧ rowSectorRaw r ≠ ""

/-! Organisation fields as parsed from one row (lines 114-121 / 129-144):
text fields via `strip() or None`, coordinates via the shared `float()` block. -/

def rowOrgName (r : Row) : Option String := strOrNone r.organisationNameCol

def rowBillingStreet (r : Row) : Option String := strOrNone r.billingStreetCol

def rowBillingCity (r : Row) : Option String := strOrNone r.billingCityCol

def rowBillingStateProvince (r : Row) : Option String := strOrNone r.billingStateProvinceCol

def rowBillingZip (r : Row) : Option String := strOrNone r.billingZipPostalCodeCol

def rowFormattedAddress (r : Row) : Option String := strOrNone r.formattedAddressCol

def rowLat (r : Row) : Option Rat := (parseCoordinates r.latitudeCol r.longitudeCol).1

def rowLon (r : Row) : Option Rat := (parseCoordinates r.latitudeCol r.longitudeCol).2

/-! ### Organisation create / merge (lines 109-144) -/

/-- First sighting of an organisation id: populate every field from this row. -/
def mkNewOrganisation (oid : String) (r : Row) : Organisation :=
  { organisationId := oid
    organisationName := rowOrgName r
    billingStreet := rowBillingStreet r
    billingCity := rowBillingCity r
    billingStateProvince := rowBillingStateProvince r
    billingZipPostalCode := rowBillingZip r
    formattedAddress := rowFormattedAddress r
    latitude := rowLat r
    longitude := rowLon r }

/-- Lines 124-144: fill each field that is currently falsy; for the coordinates
the incoming value must itself be truthy (`if not existing[f] and new:`). -/
def mergeOrganisation (existing : Organisation) (r : Row) : Organisation :=
  { organisationId := existing.organisationId
    organisationName :=
      if optTruthy existing.organisationName then existing.organisationName
      else rowOrgName r
    billingStreet :=
      if optTruthy existing.billingStreet then existing.billingStreet
      else rowBillingStreet r
    billingCity :=
      if optTruthy existing.billingCity then existing.billingCity
      else rowBillingCity r
    billingStateProvince :=
      if optTruthy existing.billingStateProvince then existing.billingStateProvince
      else rowBillingStateProvince r
    billingZipPostalCode :=
      if optTruthy existing.billingZipPostalCode then existing.billingZipPostalCode
      else rowBillingZip r
    formattedAddress :=
      if optTruthy existing.formattedAddress then existing.formattedAddress
      else rowFormattedAddress r
    latitude :=
      if ¬ coordTruthy existing.latitude ∧ coordTruthy (rowLat r)
      then rowLat r else existing.latitude
    longitude :=
      if ¬ coordTruthy existing.longitude ∧ coordTruthy (rowLon r)
      then rowLon r else existing.longitude }

/-- Lines 109-144 as one upsert on the organisations dict. -/
def orgUpsert (orgs : List (String × Organisation)) (r : Row) : List (String × Organisation) :=
  if rowOrgId r = "" then orgs
  else
    match dictGet orgs (rowOrgId r) with
    | none => dictInsert orgs (rowOrgId r) (mkNewOrganisation (rowOrgId r) r)
    | some existing => dictInsert orgs (rowOrgId r) (mergeOrganisation existing r)

/-- Lines 146-158: the Capability record appended for a row, given the resolved
carry-forward slots in force for that row. -/
def mkCapability (r : Row) (detailed_item_id current_sector : Option String) : Capability :=
  { organisationCapability := rowCapLabel r
    organisationId := rowOrgId r
    itemId := if rowItemId r ≠ "" then some (rowItemId r) else none
    detailedItemId := if optTruthy detailed_item_id then detailed_item_id else none
    capabilityType := strOrNone r.capabilityTypeCol
    validationDate := normalizeValidationDate r.validationDateCol
    sectorMappingId := if optTruthy current_sector then current_sector else none }

/-! ### The loop body of `process_csv` (lines 33-158) -/

/-- The body of the loop for a row that survives the skip rule (lines 38-158). -/
def stepBody (st : NormState) (r : Row) : NormState :=
    let items1 :=
      if rowItemId r ≠ "" ∧ rowItemName r ≠ "" then
        dictInsert st.items (rowItemId r) (rowItemName r)
      else st.items
    let current_d :=
      if detailedRaw r ≠ "" ∧ detailedRaw r ≠ "Subtotal" then some (detailedRaw r)
      else st.current_detailed_item_id
    let detailed1 :=
      if detailedRaw r ≠ "" ∧ detailedRaw r ≠ "Subtotal" ∧ rowDetailedName r ≠ "" then
        dictInsert st.detailed_items (detailedRaw r)
          { detailedItemName := rowDetailedName r
            itemId := if rowItemId r ≠ "" then some (rowItemId r) else none }
      else st.detailed_items
    let current_s :=
      if rowSectorRaw r ≠ "" then some (rowSectorRaw r)
      else st.current_sector_mapping_id
    let sectors1 :=
      match current_s with
      | some sid =>
        if sid ≠ "" ∧ rowSectorName r ≠ "" then dictInsert st.sectors sid (rowSectorName r)
        else st.sectors
      | none => st.sectors
    let orgs1 := orgUpsert st.organisations r
    let caps1 :=
      if rowOrgId r ≠ "" ∧ rowCapLabel r ≠ "" then
        st.capabilities ++ [mkCapability r current_d current_s]
      else st.capabilities
    { items := items1
      detailed_items := detailed1
      sectors := sectors1
      organisations := orgs1
      capabilities := caps1
      current_detailed_item_id := current_d
      current_sector_mapping_id := current_s }

/-- One iteration of the row loop of `process_csv`: lines 35-36 skip the row
when the organisation-id cell is falsy or blank after strip, otherwise the
body runs. -/
def processRow (st : NormState) (r : Row) : NormState :=
  if rowOrgIdRaw r = "" then st else stepBody st r

/-- The whole single pass of `process_csv` over the data rows, in file order. -/
def processCsv (rows : List Row) : NormState :=
  rows.foldl processRow initState

/-! ### Basic lemmas about the primitives -/

theorem toNat_ofNat_valid (n : Nat) (h : n < 55296) : (Char.ofNat n).toNat = n := by
  have hv : Nat.isValidChar n := Or.inl h
  rw [Char.ofNat, dif_pos hv]
  rfl

theorem upperChar_idem (c : Char) : upperChar (upperChar c) = upperChar c := by
  unfold upperChar
  by_cases h : 97 ≤ c.toNat ∧ c.toNat ≤ 122
  · rw [if_pos h]
    have ht : (Char.ofNat (c.toNat - 32)).toNat = c.toNat - 32 :=
      toNat_ofNat_valid _ (by omega)
    rw [if_neg (by omega)]
  · rw [if_neg h, if_neg h]

theorem map_upperChar_idem (l : List Char) :
    (l.map upperChar).map upperChar = l.map upperChar := by
  induction l with
  | nil => rfl
  | cons c t ih => simp [ih, upperChar_idem]

theorem pyUpper_idem (s : String) : pyUpper (pyUpper s) = pyUpper s := by
  cases s with
  | mk l =>
    show (⟨(l.map upperChar).map upperChar⟩ : String) = ⟨l.map upperChar⟩
    rw [map_upperChar_idem]

theorem string_mk_eq_empty {l : List Char} : (⟨l⟩ : String) = "" ↔ l = [] := by
  constructor
  · intro h
    have := congrArg String.data h
    simpa using this
  · intro h; rw [h]

theorem pyUpper_eq_empty {s : String} : pyUpper s = "" ↔ s = "" := by
  cases s with
  | mk l =>
    simp only [pyUpper, string_mk_eq_empty]
    exact List.map_eq_nil_iff

theorem strOrNone_ne_some_empty (s : String) : strOrNone s ≠ some "" := by
  unfold strOrNone
  by_cases h : pyStrip s = "" <;> simp [h]

theorem dictGet_insert_self {α : Type} (m : List (String × α)) (k : String) (v : α) :
    dictGet (dictInsert m k v) k = some v := by
  induction m with
  | nil => simp [dictInsert, dictGet]
  | cons p rest ih =>
    obtain ⟨k1, v1⟩ := p
    by_cases h : k1 = k <;> simp [dictInsert, dictGet, h, ih]

theorem dictGet_insert_ne {α : Type} (m : List (String × α)) (k : String) (v : α)
    (k2 : String) (h : k2 ≠ k) : dictGet (dictInsert m k v) k2 = dictGet m k2 := by
  induction m with
  | nil =>
    simp only [dictInsert, dictGet]
    rw [if_neg (Ne.symm h)]
  | cons p rest ih =>
    obtain ⟨k1, v1⟩ := p
    by_cases h1 : k1 = k
    · subst h1
      simp only [dictInsert, if_pos rfl, dictGet]
      rw [if_neg (Ne.symm h), if_neg (Ne.symm h)]
    · simp only [dictInsert, if_neg h1, dictGet]
      by_cases h2 : k1 = k2
      · rw [if_pos h2, if_pos h2]
      · rw [if_neg h2, if_neg h2, ih]

theorem dictGet_insert_isSome {α : Type} (m : List (String × α)) (k : String) (v : α)
    (k2 : String) (h : (dictGet m k2).isSome) :
    (dictGet (dictInsert m k v) k2).isSome := by
  by_cases he : k2 = k
  · subst he; simp [dictGet_insert_self]
  · rwa [dictGet_insert_ne m k v k2 he]

theorem processCsv_append_one (rows : List Row) (r : Row) :
    processCsv (rows ++ [r]) = processRow (processCsv rows) r := by
  simp [processCsv, List.foldl_append]

theorem processRow_skip (st : NormState) (r : Row) (h : rowOrgIdRaw r = "") :
    processRow st r = st := by
  simp [processRow, h]

theorem processRow_run (st : NormState) (r : Row) (h : rowOrgIdRaw r ≠ "") :
    processRow st r = stepBody st r := by
  simp [processRow, h]

theorem rowOrgId_ne_empty (r : Row) (h : rowOrgIdRaw r ≠ "") : rowOrgId r ≠ "" := by
  rw [rowOrgId]
  intro hc
  exact h (pyUpper_eq_empty.mp hc)

/-! ### Claim C10: coupled coordinate-parse failure -/

/-- C10: parsing the Latitude and Longitude strings never aborts the pass
(`parseCoordinates` is a total function), and when the latitude string is
non-blank but fails numeric conversion, the shared `except` handler makes the
row contribute neither coordinate, even when the longitude string on the same
row is a valid number. -/
theorem coordinate_failure_coupling (latRaw lonRaw : String) (q : Rat)
    (h1 : pyStrip latRaw ≠ "") (h2 : pyFloat (pyStrip latRaw) = none)
    (h3 : pyFloat (pyStrip lonRaw) = some q) :
    parseCoordinates latRaw lonRaw = (none, none) := by
  simp [parseCoordinates, h1, h2]

/-- Witness for C10: latitude `"abc"` is malformed while longitude `"151.2"` is a
valid number, yet both coordinates come out absent. -/
theorem coordinate_failure_coupling_witness :
    parseCoordinates "abc" "151.2" = (none, none) :=
  coordinate_failure_coupling "abc" "151.2" (mkRat 756 5) (by decide) (by decide) (by decide)

/-! ### Claim C3: validation-date normalization -/

/-- C3 counterexample: the claim says every string that does not parse under the
day/month/year slash format (including `"not-a-date"`) yields a null validation
date, but the code only attempts that format when the string contains a slash;
`"not-a-date"` has no slash and is passed through verbatim, not nulled. -/
theorem date_passthrough_cex :
    normalizeValidationDate "not-a-date" = some "not-a-date" ∧
    normalizeValidationDate "not-a-date" ≠ none := by
  decide

/-- C3 (amended): `"05/03/2024"` normalizes to `"2024-03-05"`; a non-blank string
without a slash is passed through verbatim rather than nulled (a blank one gives
null); a slash-containing string that fails the `%d/%m/%Y` parse gives null; a
slash-containing string that parses is rendered as the ISO calendar date.  The
normalization is a total function, so it never aborts the pass. -/
theorem validation_date_normalization :
    normalizeValidationDate "05/03/2024" = some "2024-03-05" ∧
    (∀ s, ¬ (containsChar (pyStrip s) '/' = true) →
      normalizeValidationDate s = if pyStrip s = "" then none else some (pyStrip s)) ∧
    (∀ s, containsChar (pyStrip s) '/' = true → parseDMY (pyStrip s) = none →
      normalizeValidationDate s = none) ∧
    (∀ s d m y, parseDMY (pyStrip s) = some (d, m, y) → containsChar (pyStrip s) '/' = true →
      normalizeValidationDate s = some (toIso d m y)) := by
  refine ⟨by decide, ?_, ?_, ?_⟩
  · intro s h
    by_cases he : pyStrip s = "" <;> simp [normalizeValidationDate, he, h]
  · intro s h1 h2
    have he : pyStrip s ≠ "" := by
      intro hc
      rw [hc] at h1
      exact absurd h1 (by decide)
    simp [normalizeValidationDate, he, h1, h2]
  · intro s d m y h2 h1
    have he : pyStrip s ≠ "" := by
      intro hc
      rw [hc] at h1
      exact absurd h1 (by decide)
    simp [normalizeValidationDate, he, h1, h2]

/-- Witness for C3 (amended): `"not-a-date"` is passed through, not nulled. -/
theorem validation_date_normalization_witness :
    normalizeValidationDate "not-a-date" =
      if pyStrip "not-a-date" = "" then none else some (pyStrip "not-a-date") :=
  validation_date_normalization.2.1 "not-a-date" (by decide)

/-! ### Component equations for one loop iteration -/

theorem stepBody_current_detailed (st : NormState) (r : Row) :
    (stepBody st r).current_detailed_item_id =
      if detailedRaw r ≠ "" ∧ detailedRaw r ≠ "Subtotal" then some (detailedRaw r)
      else st.current_detailed_item_id := rfl

theorem stepBody_current_sector (st : NormState) (r : Row) :
    (stepBody st r).current_sector_mapping_id =
      if rowSectorRaw r ≠ "" then some (rowSectorRaw r)
      else st.current_sector_mapping_id := rfl

theorem stepBody_items (st : NormState) (r : Row) :
    (stepBody st r).items =
      if rowItemId r ≠ "" ∧ rowItemName r ≠ "" then
        dictInsert st.items (rowItemId r) (rowItemName r)
      else st.items := rfl

theorem stepBody_detailed_items (st : NormState) (r : Row) :
    (stepBody st r).detailed_items =
      if detailedRaw r ≠ "" ∧ detailedRaw r ≠ "Subtotal" ∧ rowDetailedName r ≠ "" then
        dictInsert st.detailed_items (detailedRaw r)
          { detailedItemName := rowDetailedName r
            itemId := if rowItemId r ≠ "" then some (rowItemId r) else none }
      else st.detailed_items := rfl

theorem stepBody_sectors (st : NormState) (r : Row) :
    (stepBody st r).sectors =
      match (if rowSectorRaw r ≠ "" then some (rowSectorRaw r) else st.current_sector_mapping_id) with
      | some sid =>
        if sid ≠ "" ∧ rowSectorName r ≠ "" then dictInsert st.sectors sid (rowSectorName r)
        else st.sectors
      | none => st.sectors := rfl

theorem stepBody_organisations (st : NormState) (r : Row) :
    (stepBody st r).organisations = orgUpsert st.organisations r := rfl

theorem stepBody_capabilities (st : NormState) (r : Row) :
    (stepBody st r).capabilities =
      if rowOrgId r ≠ "" ∧ rowCapLabel r ≠ "" then
        st.capabilities ++
          [mkCapability r (stepBody st r).current_detailed_item_id
            (stepBody st r).current_sector_mapping_id]
      else st.capabilities := rfl

theorem processRow_organisations (st : NormState) (r : Row) :
    (processRow st r).organisations = orgUpsert st.organisations r := by
  by_cases h : rowOrgIdRaw r = ""
  · rw [processRow_skip st r h]
    have h2 : rowOrgId r = "" := by
      rw [rowOrgId, h]
      rfl
    rw [orgUpsert, if_pos h2]
  · rw [processRow_run st r h, stepBody_organisations]

/-! ### Claim C2: first-write-wins versus last-write-wins -/

def rowN1 : Row :=
  { organisationIdCol := "A", itemIdCol := "I1", itemNameCol := "N1",
    sectorMappingIdCol := "S1", sectorNameCol := "M1" }

def rowN2 : Row :=
  { organisationIdCol := "A", itemIdCol := "I1", itemNameCol := "N2",
    sectorMappingIdCol := "S1", sectorNameCol := "M2" }

/-- C2 counterexample: the same `itemId` (`"I1"`) and the same `sectorMappingId`
(`"S1"`) each appear on two processed rows with differing non-blank names; the
final collections map them to the SECOND observed names (`"N2"`, `"M2"`), not
the first, because lines 42 and 76 assign unconditionally. -/
theorem item_sector_first_write_cex :
    dictGet (processCsv [rowN1, rowN2]).items "I1" = some "N2" ∧
    dictGet (processCsv [rowN1, rowN2]).items "I1" ≠ some "N1" ∧
    dictGet (processCsv [rowN1, rowN2]).sectors "S1" = some "M2" ∧
    dictGet (processCsv [rowN1, rowN2]).sectors "S1" ≠ some "M1" := by
  decide

/-- C2 (amended): Item and Sector name registration is last-write-wins, not
first-write-wins: appending a processed row that carries a non-blank key and a
non-blank name makes the final collection map that key to this latest name,
replacing any earlier one. -/
theorem item_sector_last_write_wins (rows : List Row) (r : Row)
    (hp : processedP r = true) :
    (rowItemId r ≠ "" → rowItemName r ≠ "" →
      dictGet (processCsv (rows ++ [r])).items (rowItemId r) = some (rowItemName r)) ∧
    (rowSectorRaw r ≠ "" → rowSectorName r ≠ "" →
      dictGet (processCsv (rows ++ [r])).sectors (rowSectorRaw r) = some (rowSectorName r)) := by
  rw [processCsv_append_one]
  have hp2 : rowOrgIdRaw r ≠ "" := by simpa [processedP] using hp
  rw [processRow_run _ _ hp2]
  constructor
  · intro h1 h2
    rw [stepBody_items, if_pos ⟨h1, h2⟩, dictGet_insert_self]
  · intro h1 h2
    rw [stepBody_sectors, if_pos h1]
    simp only [if_pos (And.intro h1 h2)]
    rw [dictGet_insert_self]

/-- Witness for C2 (amended): the second row's names win. -/
theorem item_sector_last_write_wins_witness :
    dictGet (processCsv ([rowN1] ++ [rowN2])).items (rowItemId rowN2) =
      some (rowItemName rowN2) :=
  (item_sector_last_write_wins [rowN1] rowN2 (by decide)).1 (by decide) (by decide)

/-! ### Claim C4: subtotal-marker rows -/

def rowGroupOpen : Row :=
  { organisationIdCol := "A", detailedItemIdCol := "D1", detailedItemNameCol := "Foo",
    sectorMappingIdCol := "S1", sectorNameCol := "SecA" }

def rowSubtotal : Row :=
  { organisationIdCol := "A", detailedItemIdCol := "Subtotal",
    sectorMappingIdCol := "Subtotal", organisationCapabilityCol := "Cap1" }

/-- C4 counterexample: a processed row whose detailed-item cell and sector cell
both hold the `"Subtotal"` sentinel leaves the detailed-item slot alone but DOES
advance the sector slot (the sentinel is only checked for the detailed-item
column, line 50; the sector update at line 67 has no sentinel check), and with a
non-blank organisation id and capability label it DOES create a Capability
record (the only skip rule, lines 35-36, looks at the organisation id). -/
theorem subtotal_row_effects_cex :
    (processCsv [rowGroupOpen]).current_sector_mapping_id = some "S1" ∧
    (processCsv [rowGroupOpen, rowSubtotal]).current_detailed_item_id = some "D1" ∧
    (processCsv [rowGroupOpen, rowSubtotal]).current_sector_mapping_id = some "Subtotal" ∧
    (processCsv [rowGroupOpen]).capabilities.length = 0 ∧
    (processCsv [rowGroupOpen, rowSubtotal]).capabilities.length = 1 := by
  decide

/-- C4 (amended): a `"Subtotal"` detailed-item cell never resets or advances the
detailed-item carry-forward slot; but a non-blank sector cell — the sentinel
included — always advances the sector slot, and a processed row with a non-blank
capability label always appends exactly one Capability record, sentinel cells
notwithstanding. -/
theorem subtotal_row_effects (st : NormState) (r : Row) :
    (detailedRaw r = "Subtotal" →
      (processRow st r).current_detailed_item_id = st.current_detailed_item_id) ∧
    (processedP r = true → rowSectorRaw r ≠ "" →
      (processRow st r).current_sector_mapping_id = some (rowSectorRaw r)) ∧
    (processedP r = true → rowCapLabel r ≠ "" →
      (processRow st r).capabilities = st.capabilities ++
        [mkCapability r (processRow st r).current_detailed_item_id
          (processRow st r).current_sector_mapping_id]) := by
  refine ⟨?_, ?_, ?_⟩
  · intro h
    by_cases hp : rowOrgIdRaw r = ""
    · rw [processRow_skip st r hp]
    · rw [processRow_run st r hp, stepBody_current_detailed]
      rw [if_neg (by simp [h])]
  · intro hp hs
    have hp2 : rowOrgIdRaw r ≠ "" := by simpa [processedP] using hp
    rw [processRow_run st r hp2, stepBody_current_sector, if_pos hs]
  · intro hp hc
    have hp2 : rowOrgIdRaw r ≠ "" := by simpa [processedP] using hp
    rw [processRow_run st r hp2, stepBody_capabilities,
      if_pos ⟨rowOrgId_ne_empty r hp2, hc⟩]

/-- Witness for C4 (amended), at the concrete subtotal row: detailed slot kept,
sector slot advanced to the sentinel, one capability appended. -/
theorem subtotal_row_effects_witness :
    (processRow (processCsv [rowGroupOpen]) rowSubtotal).current_detailed_item_id =
      (processCsv [rowGroupOpen]).current_detailed_item_id ∧
    (processRow (processCsv [rowGroupOpen]) rowSubtotal).current_sector_mapping_id =
      some (rowSectorRaw rowSubtotal) :=
  ⟨(subtotal_row_effects (processCsv [rowGroupOpen]) rowSubtotal).1 (by decide),
   (subtotal_row_effects (processCsv [rowGroupOpen]) rowSubtotal).2.1 (by decide) (by decide)⟩

/-! ### Claim C8: reopened groups -/

def rowReopenA : Row :=
  { organisationIdCol := "A", detailedItemIdCol := "D1", detailedItemNameCol := "Foo",
    itemIdCol := "I1", itemNameCol := "X" }

def rowReopenB : Row :=
  { organisationIdCol := "A", detailedItemIdCol := "D2", detailedItemNameCol := "Bar" }

def rowReopenC : Row :=
  { organisationIdCol := "A", detailedItemIdCol := "D1", detailedItemNameCol := "Baz",
    itemIdCol := "I2", itemNameCol := "Y" }

/-- C8 counterexample: `"D1"` is first registered with name `"Foo"` and itemId
`"I1"`, is interrupted by `"D2"`, and reappears with name `"Baz"` and itemId
`"I2"`.  The claim says the re-registration is a no-op; in fact line 54 assigns
unconditionally, so the stored record is overwritten with the latest values. -/
theorem reopened_group_overwrite_cex :
    dictGet (processCsv [rowReopenA]).detailed_items "D1" =
      some { detailedItemName := "Foo", itemId := some "I1" } ∧
    dictGet (processCsv [rowReopenA, rowReopenB, rowReopenC]).detailed_items "D1" =
      some { detailedItemName := "Baz", itemId := some "I2" } ∧
    dictGet (processCsv [rowReopenA, rowReopenB, rowReopenC]).detailed_items "D1" ≠
      some { detailedItemName := "Foo", itemId := some "I1" } := by
  decide

/-- C8 (amended): a processed row carrying a non-blank, non-sentinel detailed-item
id always updates the carry-forward slot to that id; the entity registration,
however, is not first-write-wins: when the row also carries a non-blank name the
stored record is overwritten with this row's name and itemId, and it is a no-op
only when the row's name is blank. -/
theorem reopened_group_behaviour (st : NormState) (r : Row)
    (hp : processedP r = true) (h1 : detailedRaw r ≠ "") (h2 : detailedRaw r ≠ "Subtotal") :
    (processRow st r).current_detailed_item_id = some (detailedRaw r) ∧
    (rowDetailedName r ≠ "" →
      dictGet (processRow st r).detailed_items (detailedRaw r) =
        some { detailedItemName := rowDetailedName r
               itemId := if rowItemId r ≠ "" then some (rowItemId r) else none }) ∧
    (rowDetailedName r = "" → (processRow st r).detailed_items = st.detailed_items) := by
  have hp2 : rowOrgIdRaw r ≠ "" := by simpa [processedP] using hp
  rw [processRow_run st r hp2]
  refine ⟨?_, ?_, ?_⟩
  · rw [stepBody_current_detailed, if_pos ⟨h1, h2⟩]
  · intro hn
    rw [stepBody_detailed_items, if_pos ⟨h1, h2, hn⟩, dictGet_insert_self]
  · intro hn
    rw [stepBody_detailed_items, if_neg (by simp [hn])]

/-- Witness for C8 (amended), at the reopening row `rowReopenC`. -/
theorem reopened_group_behaviour_witness :
    (processRow (processCsv [rowReopenA, rowReopenB]) rowReopenC).current_detailed_item_id =
      some (detailedRaw rowReopenC) ∧
    dictGet (processRow (processCsv [rowReopenA, rowReopenB]) rowReopenC).detailed_items
        (detailedRaw rowReopenC) =
      some { detailedItemName := rowDetailedName rowReopenC
             itemId := if rowItemId rowReopenC ≠ "" then some (rowItemId rowReopenC) else none } :=
  ⟨(reopened_group_behaviour (processCsv [rowReopenA, rowReopenB]) rowReopenC
      (by decide) (by decide) (by decide)).1,
   (reopened_group_behaviour (processCsv [rowReopenA, rowReopenB]) rowReopenC
      (by decide) (by decide) (by decide)).2.1 (by decide)⟩

/-! ### Claim C9: referential integrity of Capability records -/

theorem orgUpsert_preserves_isSome (orgs : List (String × Organisation)) (r : Row)
    (k : String) (h : (dictGet orgs k).isSome) :
    (dictGet (orgUpsert orgs r) k).isSome := by
  rw [orgUpsert]
  by_cases he : rowOrgId r = ""
  · rw [if_pos he]
    exact h
  · rw [if_neg he]
    rcases hd : dictGet orgs (rowOrgId r) with _ | e <;> simp only [hd] <;>
      exact dictGet_insert_isSome _ _ _ _ h

theorem orgUpsert_key_isSome (orgs : List (String × Organisation)) (r : Row)
    (h : rowOrgId r ≠ "") :
    (dictGet (orgUpsert orgs r) (rowOrgId r)).isSome := by
  rw [orgUpsert, if_neg h]
  rcases hd : dictGet orgs (rowOrgId r) with _ | e <;> simp only [hd] <;>
    simp [dictGet_insert_self]

theorem org_fk_step (st : NormState) (r : Row)
    (h : ∀ cap ∈ st.capabilities, (dictGet st.organisations cap.organisationId).isSome) :
    ∀ cap ∈ (processRow st r).capabilities,
      (dictGet (processRow st r).organisations cap.organisationId).isSome := by
  by_cases hp : rowOrgIdRaw r = ""
  · rw [processRow_skip st r hp]
    exact h
  · rw [processRow_run st r hp, stepBody_capabilities, stepBody_organisations]
    by_cases hg : rowOrgId r ≠ "" ∧ rowCapLabel r ≠ ""
    · rw [if_pos hg]
      intro cap hcap
      rcases List.mem_append.mp hcap with hold | hnew
      · exact orgUpsert_preserves_isSome _ _ _ (h cap hold)
      · have hce : cap = mkCapability r (stepBody st r).current_detailed_item_id
            (stepBody st r).current_sector_mapping_id := by
          simpa using hnew
        subst hce
        exact orgUpsert_key_isSome _ _ hg.1
    · rw [if_neg hg]
      intro cap hcap
      exact orgUpsert_preserves_isSome _ _ _ (h cap hcap)

def rowDangling : Row :=
  { organisationIdCol := "O", organisationCapabilityCol := "C", itemIdCol := "I1",
    detailedItemIdCol := "D1", sectorMappingIdCol := "S1" }

/-- C9 counterexample: a single row with a non-blank organisation id and capability
label whose item, detailed-item and sector cells carry ids but whose name cells
are all blank.  The Capability stores all three ids, yet none of them is a key of
its collection: Items/DetailedItems/Sectors are only populated when the paired
name cell is non-blank (lines 41, 53, 75), while the Capability stores the ids
unconditionally (lines 152-156). -/
theorem capability_dangling_fk_cex :
    ((processCsv [rowDangling]).capabilities.map
      (fun c => (c.itemId, c.detailedItemId, c.sectorMappingId))) =
      [(some "I1", some "D1", some "S1")] ∧
    dictGet (processCsv [rowDangling]).items "I1" = none ∧
    dictGet (processCsv [rowDangling]).detailed_items "D1" = none ∧
    dictGet (processCsv [rowDangling]).sectors "S1" = none := by
  decide

/-- C9 (amended): after the pass, every Capability record's organisationId is a
key present in the Organisations collection; the non-null itemId, detailedItemId
and sectorMappingId, however, are not guaranteed to be keys of Items,
DetailedItems and Sectors — a referenced id is registered there only if some row
supplied it together with a non-blank name. -/
theorem capability_org_fk_integrity (rows : List Row) :
    ∀ cap ∈ (processCsv rows).capabilities,
      (dictGet (processCsv rows).organisations cap.organisationId).isSome := by
  suffices haux : ∀ (l : List Row) (st : NormState),
      (∀ cap ∈ st.capabilities, (dictGet st.organisations cap.organisationId).isSome) →
      ∀ cap ∈ (l.foldl processRow st).capabilities,
        (dictGet (l.foldl processRow st).organisations cap.organisationId).isSome by
    refine haux rows initState ?_
    intro cap hc
    simp [initState] at hc
  intro l
  induction l with
  | nil => intro st h; simpa using h
  | cons r rest ih =>
    intro st h
    exact ih (processRow st r) (org_fk_step st r h)

def capDangling : Capability :=
  { organisationCapability := "C", organisationId := "O", itemId := some "I1",
    detailedItemId := some "D1", capabilityType := none, validationDate := none,
    sectorMappingId := some "S1" }

/-- Witness for C9 (amended): the dangling-FK row's capability still has its
organisation id present in the Organisations collection. -/
theorem capability_org_fk_integrity_witness :
    (dictGet (processCsv [rowDangling]).organisations capDangling.organisationId).isSome :=
  capability_org_fk_integrity [rowDangling] capDangling (by decide)

/-! ### Claim C5: case-insensitive organisation identifiers -/

theorem org_keys_normalized_aux (l : List Row) (st : NormState)
    (h1 : ∀ k org, dictGet st.organisations k = some org →
      pyUpper k = k ∧ org.organisationId = k)
    (h2 : ∀ cap ∈ st.capabilities, pyUpper cap.organisationId = cap.organisationId) :
    (∀ k org, dictGet (l.foldl processRow st).organisations k = some org →
      pyUpper k = k ∧ org.organisationId = k) ∧
    (∀ cap ∈ (l.foldl processRow st).capabilities,
      pyUpper cap.organisationId = cap.organisationId) := by
  induction l generalizing st with
  | nil => exact ⟨h1, h2⟩
  | cons r rest ih =>
    refine ih (processRow st r) ?_ ?_
    · intro k org horg
      rw [processRow_organisations] at horg
      rw [orgUpsert] at horg
      by_cases he : rowOrgId r = ""
      · rw [if_pos he] at horg
        exact h1 k org horg
      · rw [if_neg he] at horg
        by_cases hk : k = rowOrgId r
        · subst hk
          have hup : pyUpper (rowOrgId r) = rowOrgId r := by
            rw [rowOrgId, pyUpper_idem]
          rcases hd : dictGet st.organisations (rowOrgId r) with _ | e <;>
            rw [hd] at horg <;> rw [dictGet_insert_self] at horg
          · cases horg
            exact ⟨hup, rfl⟩
          · cases horg
            exact ⟨hup, (h1 _ e hd).2⟩
        · rcases hd : dictGet st.organisations (rowOrgId r) with _ | e <;>
            rw [hd] at horg <;> rw [dictGet_insert_ne _ _ _ _ hk] at horg <;>
            exact h1 k org horg
    · intro cap hcap
      by_cases hp : rowOrgIdRaw r = ""
      · rw [processRow_skip st r hp] at hcap
        exact h2 cap hcap
      · rw [processRow_run st r hp, stepBody_capabilities] at hcap
        by_cases hg : rowOrgId r ≠ "" ∧ rowCapLabel r ≠ ""
        · rw [if_pos hg] at hcap
          rcases List.mem_append.mp hcap with hold | hnew
          · exact h2 cap hold
          · have hce : cap = mkCapability r (stepBody st r).current_detailed_item_id
                (stepBody st r).current_sector_mapping_id := by
              simpa using hnew
            subst hce
            show pyUpper (rowOrgId r) = rowOrgId r
            rw [rowOrgId, pyUpper_idem]
        · rw [if_neg hg] at hcap
          exact h2 cap hcap

/-- C5: every key of the final Organisations collection is upper-case-normalized
and equals the stored record's organisationId; two keys that agree up to letter
case are equal (at most one record per case-insensitive equivalence class); and
every Capability's organisationId is the upper-case-normalized form. -/
theorem organisation_case_normalization (rows : List Row) :
    (∀ k org, dictGet (processCsv rows).organisations k = some org →
      pyUpper k = k ∧ org.organisationId = k) ∧
    (∀ k1 k2, (dictGet (processCsv rows).organisations k1).isSome →
      (dictGet (processCsv rows).organisations k2).isSome →
      pyUpper k1 = pyUpper k2 → k1 = k2) ∧
    (∀ cap ∈ (processCsv rows).capabilities,
      pyUpper cap.organisationId = cap.organisationId) := by
  have haux := org_keys_normalized_aux rows initState
    (by intro k org horg; simp [initState, dictGet] at horg)
    (by intro cap hc; simp [initState] at hc)
  refine ⟨haux.1, ?_, haux.2⟩
  intro k1 k2 hs1 hs2 he
  obtain ⟨o1, ho1⟩ := Option.isSome_iff_exists.mp hs1
  obtain ⟨o2, ho2⟩ := Option.isSome_iff_exists.mp hs2
  have e1 := (haux.1 k1 o1 ho1).1
  have e2 := (haux.1 k2 o2 ho2).1
  rw [← e1, ← e2, he]

def rowCaseA : Row := { organisationIdCol := "abC", organisationNameCol := "n1" }

def rowCaseB : Row := { organisationIdCol := "ABc", organisationNameCol := "n2" }

def orgCaseRec : Organisation :=
  { organisationId := "ABC", organisationName := some "n1", billingStreet := none,
    billingCity := none, billingStateProvince := none, billingZipPostalCode := none,
    formattedAddress := none, latitude := none, longitude := none }

/-- Witness for C5: `"abC"` and `"ABc"` collapse to the single upper-cased key
`"ABC"`, whose stored record carries that same id. -/
theorem organisation_case_normalization_witness :
    pyUpper "ABC" = "ABC" ∧ orgCaseRec.organisationId = "ABC" :=
  (organisation_case_normalization [rowCaseA, rowCaseB]).1 "ABC" orgCaseRec (by decide)

/-! ### Claim C1: monotone organisation merge -/

/-- Stored text fields of an organisation record are never the empty string
(they are produced by `strip() or None`). -/
def goodOrg (o : Organisation) : Prop :=
  o.organisationName ≠ some "" ∧ o.billingStreet ≠ some "" ∧ o.billingCity ≠ some "" ∧
  o.billingStateProvince ≠ some "" ∧ o.billingZipPostalCode ≠ some "" ∧
  o.formattedAddress ≠ some ""

theorem goodOrg_mkNew (oid : String) (r : Row) : goodOrg (mkNewOrganisation oid r) :=
  ⟨strOrNone_ne_some_empty _, strOrNone_ne_some_empty _, strOrNone_ne_some_empty _,
   strOrNone_ne_some_empty _, strOrNone_ne_some_empty _, strOrNone_ne_some_empty _⟩

theorem fill_ne_some_empty (a : Option String) (b : String) (ha : a ≠ some "") :
    (if optTruthy a then a else strOrNone b) ≠ some "" := by
  by_cases h : optTruthy a
  · rw [if_pos h]
    exact ha
  · rw [if_neg h]
    exact strOrNone_ne_some_empty b

theorem goodOrg_merge (e : Organisation) (r : Row) (h : goodOrg e) :
    goodOrg (mergeOrganisation e r) :=
  ⟨fill_ne_some_empty _ _ h.1, fill_ne_some_empty _ _ h.2.1, fill_ne_some_empty _ _ h.2.2.1,
   fill_ne_some_empty _ _ h.2.2.2.1, fill_ne_some_empty _ _ h.2.2.2.2.1,
   fill_ne_some_empty _ _ h.2.2.2.2.2⟩

/-- Field-wise monotonicity between two organisation records: every populated
text field keeps its value, and every populated NONZERO coordinate keeps its
value (a zero coordinate is Python-falsy and is exempt — that is the amendment
the counterexample forces). -/
def orgFieldsPreserved (a b : Organisation) : Prop :=
  (∀ v, a.organisationName = some v → b.organisationName = some v) ∧
  (∀ v, a.billingStreet = some v → b.billingStreet = some v) ∧
  (∀ v, a.billingCity = some v → b.billingCity = some v) ∧
  (∀ v, a.billingStateProvince = some v → b.billingStateProvince = some v) ∧
  (∀ v, a.billingZipPostalCode = some v → b.billingZipPostalCode = some v) ∧
  (∀ v, a.formattedAddress = some v → b.formattedAddress = some v) ∧
  (∀ q, a.latitude = some q → q ≠ 0 → b.latitude = some q) ∧
  (∀ q, a.longitude = some q → q ≠ 0 → b.longitude = some q)

theorem orgFieldsPreserved_refl (a : Organisation) : orgFieldsPreserved a a :=
  ⟨fun _ h => h, fun _ h => h, fun _ h => h, fun _ h => h, fun _ h => h, fun _ h => h,
   fun _ h _ => h, fun _ h _ => h⟩

theorem orgFieldsPreserved_trans {a b c : Organisation}
    (h1 : orgFieldsPreserved a b) (h2 : orgFieldsPreserved b c) : orgFieldsPreserved a c :=
  ⟨fun v h => h2.1 v (h1.1 v h),
   fun v h => h2.2.1 v (h1.2.1 v h),
   fun v h => h2.2.2.1 v (h1.2.2.1 v h),
   fun v h => h2.2.2.2.1 v (h1.2.2.2.1 v h),
   fun v h => h2.2.2.2.2.1 v (h1.2.2.2.2.1 v h),
   fun v h => h2.2.2.2.2.2.1 v (h1.2.2.2.2.2.1 v h),
   fun q h hz => h2.2.2.2.2.2.2.1 q (h1.2.2.2.2.2.2.1 q h hz) hz,
   fun q h hz => h2.2.2.2.2.2.2.2 q (h1.2.2.2.2.2.2.2 q h hz) hz⟩

theorem fill_keeps (a b : Option String) (ha : a ≠ some "") :
    ∀ v, a = some v → (if optTruthy a then a else b) = some v := by
  intro v hv
  have ht : optTruthy a = true := by
    rw [hv]
    simp only [optTruthy, ne_eq, decide_eq_true_eq]
    rintro rfl
    exact ha hv
  rw [if_pos ht, hv]

theorem fillCoord_keeps (a b : Option Rat) :
    ∀ q, a = some q → q ≠ 0 → (if ¬ coordTruthy a ∧ coordTruthy b then b else a) = some q := by
  intro q hq hz
  have ht : coordTruthy a = true := by
    rw [hq]
    simp [coordTruthy, hz]
  rw [if_neg (by simp [ht]), hq]

theorem merge_preserves (e : Organisation) (r : Row) (hg : goodOrg e) :
    orgFieldsPreserved e (mergeOrganisation e r) :=
  ⟨fill_keeps _ _ hg.1, fill_keeps _ _ hg.2.1, fill_keeps _ _ hg.2.2.1,
   fill_keeps _ _ hg.2.2.2.1, fill_keeps _ _ hg.2.2.2.2.1, fill_keeps _ _ hg.2.2.2.2.2,
   fillCoord_keeps _ _, fillCoord_keeps _ _⟩

theorem org_mono_step (st : NormState) (r : Row) (k : String) (org : Organisation)
    (h : dictGet st.organisations k = some org) (hg : goodOrg org) :
    ∃ org2, dictGet (processRow st r).organisations k = some org2 ∧ goodOrg org2 ∧
      orgFieldsPreserved org org2 := by
  rw [processRow_organisations, orgUpsert]
  by_cases he : rowOrgId r = ""
  · rw [if_pos he]
    exact ⟨org, h, hg, orgFieldsPreserved_refl org⟩
  · rw [if_neg he]
    by_cases hk : k = rowOrgId r
    · subst hk
      simp only [h]
      exact ⟨mergeOrganisation org r, dictGet_insert_self _ _ _,
        goodOrg_merge _ _ hg, merge_preserves _ _ hg⟩
    · rcases hd : dictGet st.organisations (rowOrgId r) with _ | e <;> simp only [hd] <;>
        rw [dictGet_insert_ne _ _ _ _ hk] <;>
        exact ⟨org, h, hg, orgFieldsPreserved_refl org⟩

theorem org_mono_fold (rest : List Row) (st : NormState) (k : String) (org : Organisation)
    (h : dictGet st.organisations k = some org) (hg : goodOrg org) :
    ∃ org2, dictGet (rest.foldl processRow st).organisations k = some org2 ∧ goodOrg org2 ∧
      orgFieldsPreserved org org2 := by
  induction rest generalizing st org with
  | nil => exact ⟨org, h, hg, orgFieldsPreserved_refl org⟩
  | cons r rest2 ih =>
    obtain ⟨o1, h1, hg1, hp1⟩ := org_mono_step st r k org h hg
    obtain ⟨o2, h2, hg2, hp2⟩ := ih (processRow st r) o1 h1 hg1
    exact ⟨o2, h2, hg2, orgFieldsPreserved_trans hp1 hp2⟩

theorem orgs_good (rows : List Row) :
    ∀ k org, dictGet (processCsv rows).organisations k = some org → goodOrg org := by
  suffices haux : ∀ (l : List Row) (st : NormState),
      (∀ k org, dictGet st.organisations k = some org → goodOrg org) →
      ∀ k org, dictGet (l.foldl processRow st).organisations k = some org → goodOrg org by
    refine haux rows initState ?_
    intro k org h
    simp [initState, dictGet] at h
  intro l
  induction l with
  | nil => intro st h; exact h
  | cons r rest ih =>
    intro st h
    refine ih (processRow st r) ?_
    intro k org horg
    rw [processRow_organisations, orgUpsert] at horg
    by_cases he : rowOrgId r = ""
    · rw [if_pos he] at horg
      exact h k org horg
    · rw [if_neg he] at horg
      by_cases hk : k = rowOrgId r
      · subst hk
        rcases hd : dictGet st.organisations (rowOrgId r) with _ | e <;>
          simp only [hd] at horg <;> rw [dictGet_insert_self] at horg
        · cases horg
          exact goodOrg_mkNew _ _
        · cases horg
          exact goodOrg_merge _ _ (h _ e hd)
      · rcases hd : dictGet st.organisations (rowOrgId r) with _ | e <;>
          simp only [hd] at horg <;> rw [dictGet_insert_ne _ _ _ _ hk] at horg <;>
          exact h k org horg

def rowLatZero : Row := { organisationIdCol := "org1", latitudeCol := "0" }

def rowLatFive : Row := { organisationIdCol := "ORG1", latitudeCol := "5" }

/-- C1 counterexample: after the first row the organisation "ORG1" holds the
populated (non-absent) latitude `0`; the second row for the same normalized id
carries latitude `5`, and because `0.0` is Python-falsy the guard
`if not existing['latitude'] and latitude:` (line 141) OVERWRITES the populated
value: the claim fails for a populated zero coordinate. -/
theorem org_zero_coordinate_overwritten_cex :
    (dictGet (processCsv [rowLatZero]).organisations "ORG1").map Organisation.latitude =
      some (some 0) ∧
    (dictGet (processCsv [rowLatZero, rowLatFive]).organisations "ORG1").map
      Organisation.latitude = some (some 5) ∧
    (some (5 : Rat) : Option Rat) ≠ some 0 := by
  decide

/-- C1 (amended): organisation merge is monotone for every field other than the
key — once a text field (organisationName, billingStreet, billingCity,
billingStateProvince, billingZipPostalCode, formattedAddress) holds a populated
value, and once latitude or longitude holds a populated NONZERO value, processing
any later rows leaves that value unchanged; an absent field may be filled by a
later row.  (A populated zero coordinate is Python-falsy and is not protected —
the counterexample above forces this exemption.) -/
theorem organisation_merge_monotone (rows rest : List Row) (k : String) (org : Organisation)
    (h : dictGet (processCsv rows).organisations k = some org) :
    ∃ org2, dictGet (processCsv (rows ++ rest)).organisations k = some org2 ∧
      orgFieldsPreserved org org2 := by
  have hg := orgs_good rows k org h
  have hsplit : processCsv (rows ++ rest) = rest.foldl processRow (processCsv rows) := by
    simp [processCsv, List.foldl_append]
  rw [hsplit]
  obtain ⟨o2, h2, _, hp⟩ := org_mono_fold rest (processCsv rows) k org h hg
  exact ⟨o2, h2, hp⟩

def orgLatFiveRec : Organisation :=
  { organisationId := "ORG1", organisationName := none, billingStreet := none,
    billingCity := none, billingStateProvince := none, billingZipPostalCode := none,
    formattedAddress := none, latitude := some 5, longitude := none }

/-- Witness for C1 (amended): a populated nonzero latitude survives a later row
that supplies a different (here zero) value. -/
theorem organisation_merge_monotone_witness :
    ∃ org2, dictGet (processCsv ([rowLatFive] ++ [rowLatZero])).organisations "ORG1" =
      some org2 ∧ orgFieldsPreserved orgLatFiveRec org2 :=
  organisation_merge_monotone [rowLatFive] [rowLatZero] "ORG1" orgLatFiveRec (by decide)

/-! ### Claim C7: order-independence of the organisation merge -/

/-- First `some` produced by `f`, as the head of the `filterMap`. -/
theorem findSome?_eq_head_filterMap {A B : Type} (f : A → Option B) (l : List A) :
    l.findSome? f = (l.filterMap f).head? := by
  induction l with
  | nil => rfl
  | cons a t ih =>
    rcases hf : f a with _ | b
    · simp only [List.findSome?_cons, List.filterMap_cons, hf]
      exact ih
    · simp only [List.findSome?_cons, List.filterMap_cons, hf, List.head?_cons]

theorem length_filterMap_eq_countP {A B : Type} (f : A → Option B) (l : List A) :
    (l.filterMap f).length = l.countP (fun a => (f a).isSome) := by
  induction l with
  | nil => rfl
  | cons a t ih =>
    rcases hf : f a with _ | b <;>
      simp [List.filterMap_cons, hf, List.countP_cons, ih]

/-- When at most one element of a list yields a `some`, the first `some` is
permutation-invariant. -/
theorem findSome?_perm_subsingleton {A B : Type} (f : A → Option B) {l1 l2 : List A}
    (hp : l1.Perm l2) (hc : l1.countP (fun a => (f a).isSome) ≤ 1) :
    l1.findSome? f = l2.findSome? f := by
  rw [findSome?_eq_head_filterMap, findSome?_eq_head_filterMap]
  have hfm := hp.filterMap f
  have hlen : (l1.filterMap f).length ≤ 1 := by
    rw [length_filterMap_eq_countP]
    exact hc
  rcases hm : l1.filterMap f with _ | ⟨b, t⟩
  · rw [hm] at hfm
    rw [← hfm.nil_eq]
  · rw [hm] at hfm hlen
    have ht : t = [] := by
      simp only [List.length_cons] at hlen
      exact List.eq_nil_of_length_eq_zero (by omega)
    subst ht
    rw [← List.singleton_perm.mp hfm]

/-- The accumulator view of lines 109-144 for one fixed organisation key:
`none` means the key is not yet present, a merge otherwise. -/
def orgAccStep (acc : Option Organisation) (r : Row) : Option Organisation :=
  some (match acc with
        | none => mkNewOrganisation (rowOrgId r) r
        | some e => mergeOrganisation e r)

theorem dictGet_processRow_key (st : NormState) (r : Row) (hp : rowOrgIdRaw r ≠ "") :
    dictGet (processRow st r).organisations (rowOrgId r) =
      orgAccStep (dictGet st.organisations (rowOrgId r)) r := by
  rw [processRow_organisations, orgUpsert, if_neg (rowOrgId_ne_empty r hp)]
  rcases hd : dictGet st.organisations (rowOrgId r) with _ | e <;> simp only [hd] <;>
    rw [dictGet_insert_self] <;> rfl

/-- Projection: when every row of the list belongs to the key `k`, the key's
final record is a fold of the accumulator step over those rows. -/
theorem dictGet_foldl_orgs (rows : List Row) (st : NormState) (k : String)
    (hall : ∀ r ∈ rows, processedP r = true ∧ rowOrgId r = k) :
    dictGet (rows.foldl processRow st).organisations k =
      rows.foldl orgAccStep (dictGet st.organisations k) := by
  induction rows generalizing st with
  | nil => rfl
  | cons r rest ih =>
    have hr := hall r (List.mem_cons_self r rest)
    have hp2 : rowOrgIdRaw r ≠ "" := by simpa [processedP] using hr.1
    show dictGet (rest.foldl processRow (processRow st r)).organisations k = _
    rw [ih (processRow st r) (fun x hx => hall x (List.mem_cons_of_mem r hx))]
    rw [List.foldl_cons]
    congr 1
    rw [← hr.2]
    exact dictGet_processRow_key st r hp2

/-- Python `a or b` on option values: keep the first `some`. -/
def optOr {A : Type} (a b : Option A) : Option A :=
  match a with
  | some v => some v
  | none => b

theorem optOr_none_right {A : Type} (a : Option A) : optOr a none = a := by
  cases a <;> rfl

theorem findSome?_cons_eq_optOr {A B : Type} (f : A → Option B) (a : A) (l : List A) :
    (a :: l).findSome? f = optOr (f a) (l.findSome? f) := by
  rw [List.findSome?_cons]
  cases f a <;> rfl

theorem fill_text_optOr (a : Option String) (ha : a ≠ some "") (b X : Option String) :
    optOr (if optTruthy a then a else b) X = optOr a (optOr b X) := by
  rcases a with _ | v
  · rw [if_neg (by simp [optTruthy])]
    rfl
  · have hv : v ≠ "" := by
      rintro rfl
      exact ha rfl
    rw [if_pos (by simp [optTruthy, hv])]
    rfl

theorem fill_coord_optOr (a b : Option Rat) (ha : a ≠ some 0) (hb : b ≠ some 0)
    (X : Option Rat) :
    optOr (if ¬ coordTruthy a ∧ coordTruthy b then b else a) X = optOr a (optOr b X) := by
  rcases a with _ | q
  · rcases b with _ | w
    · rw [if_neg (by simp [coordTruthy])]
      rfl
    · have hw : w ≠ 0 := by
        rintro rfl
        exact hb rfl
      rw [if_pos ⟨by simp [coordTruthy], by simp [coordTruthy, hw]⟩]
      rfl
  · have hq : q ≠ 0 := by
      rintro rfl
      exact ha rfl
    rw [if_neg (by simp [coordTruthy, hq])]
    rfl

theorem fill_coord_ne_zero (a b : Option Rat) (ha : a ≠ some 0) (hb : b ≠ some 0) :
    (if ¬ coordTruthy a ∧ coordTruthy b then b else a) ≠ some 0 := by
  by_cases h : ¬ coordTruthy a ∧ coordTruthy b
  · rw [if_pos h]
    exact hb
  · rw [if_neg h]
    exact ha

/-- A row supplies a coordinate that is either absent or nonzero (the
single-source order-independence assumption must exclude Python-falsy zero). -/
def coordClean (r : Row) : Prop := rowLat r ≠ some 0 ∧ rowLon r ≠ some 0

instance coordCleanDecidable (r : Row) : Decidable (coordClean r) :=
  inferInstanceAs (Decidable (rowLat r ≠ some 0 ∧ rowLon r ≠ some 0))

/-- The organisation record the merge produces for key `k` out of its rows:
per field, the first value supplied by any row. -/
def mergedOrgOf (k : String) (rows : List Row) : Organisation :=
  { organisationId := k
    organisationName := rows.findSome? rowOrgName
    billingStreet := rows.findSome? rowBillingStreet
    billingCity := rows.findSome? rowBillingCity
    billingStateProvince := rows.findSome? rowBillingStateProvince
    billingZipPostalCode := rows.findSome? rowBillingZip
    formattedAddress := rows.findSome? rowFormattedAddress
    latitude := rows.findSome? rowLat
    longitude := rows.findSome? rowLon }

theorem orgAccStep_fold_some (rows : List Row) (org : Organisation)
    (hg : goodOrg org) (hlat : org.latitude ≠ some 0) (hlon : org.longitude ≠ some 0)
    (hc : ∀ r ∈ rows, coordClean r) :
    rows.foldl orgAccStep (some org) = some
      { organisationId := org.organisationId
        organisationName := optOr org.organisationName (rows.findSome? rowOrgName)
        billingStreet := optOr org.billingStreet (rows.findSome? rowBillingStreet)
        billingCity := optOr org.billingCity (rows.findSome? rowBillingCity)
        billingStateProvince :=
          optOr org.billingStateProvince (rows.findSome? rowBillingStateProvince)
        billingZipPostalCode :=
          optOr org.billingZipPostalCode (rows.findSome? rowBillingZip)
        formattedAddress := optOr org.formattedAddress (rows.findSome? rowFormattedAddress)
        latitude := optOr org.latitude (rows.findSome? rowLat)
        longitude := optOr org.longitude (rows.findSome? rowLon) } := by
  induction rows generalizing org with
  | nil =>
    simp only [List.foldl_nil, List.findSome?_nil, optOr_none_right]
  | cons r rest ih =>
    have hcr := hc r (List.mem_cons_self r rest)
    show rest.foldl orgAccStep (orgAccStep (some org) r) = _
    have hstep : orgAccStep (some org) r = some (mergeOrganisation org r) := rfl
    rw [hstep, ih (mergeOrganisation org r) (goodOrg_merge _ _ hg)
      (fill_coord_ne_zero _ _ hlat hcr.1) (fill_coord_ne_zero _ _ hlon hcr.2)
      (fun x hx => hc x (List.mem_cons_of_mem r hx))]
    congr 1
    simp only [Organisation.mk.injEq]
    refine ⟨rfl, ?_, ?_, ?_, ?_, ?_, ?_, ?_, ?_⟩
    · rw [findSome?_cons_eq_optOr]
      exact fill_text_optOr _ hg.1 _ _
    · rw [findSome?_cons_eq_optOr]
      exact fill_text_optOr _ hg.2.1 _ _
    · rw [findSome?_cons_eq_optOr]
      exact fill_text_optOr _ hg.2.2.1 _ _
    · rw [findSome?_cons_eq_optOr]
      exact fill_text_optOr _ hg.2.2.2.1 _ _
    · rw [findSome?_cons_eq_optOr]
      exact fill_text_optOr _ hg.2.2.2.2.1 _ _
    · rw [findSome?_cons_eq_optOr]
      exact fill_text_optOr _ hg.2.2.2.2.2 _ _
    · rw [findSome?_cons_eq_optOr]
      exact fill_coord_optOr _ _ hlat hcr.1 _
    · rw [findSome?_cons_eq_optOr]
      exact fill_coord_optOr _ _ hlon hcr.2 _

theorem orgAccStep_fold_none (k : String) (r : Row) (rest : List Row)
    (hk : rowOrgId r = k) (hcr : coordClean r) (hcrest : ∀ x ∈ rest, coordClean x) :
    (r :: rest).foldl orgAccStep none = some (mergedOrgOf k (r :: rest)) := by
  show rest.foldl orgAccStep (orgAccStep none r) = _
  have hstep : orgAccStep none r = some (mkNewOrganisation (rowOrgId r) r) := rfl
  rw [hstep, orgAccStep_fold_some rest (mkNewOrganisation (rowOrgId r) r)
    (goodOrg_mkNew _ _) hcr.1 hcr.2 hcrest]
  congr 1
  simp only [mergedOrgOf, Organisation.mk.injEq]
  refine ⟨hk, ?_, ?_, ?_, ?_, ?_, ?_, ?_, ?_⟩ <;> rw [findSome?_cons_eq_optOr] <;> rfl

/-- How many of the rows supply a value for the field read off by `f`. -/
def suppliesCount (rows : List Row) {A : Type} (f : Row → Option A) : Nat :=
  rows.countP (fun r => (f r).isSome)

def rowLatZeroA : Row := { organisationIdCol := "A", latitudeCol := "0" }

def rowNameOnlyA : Row := { organisationIdCol := "A", organisationNameCol := "N" }

/-- C7 counterexample: two rows for organisation "A"; the first supplies only a
latitude, whose value is `0`, the second supplies only a name.  Each fillable
field is supplied by at most one row, yet the two processing orders disagree:
with the zero-latitude row first the final latitude is `0`; with it second, the
creating row stores an absent latitude and the zero is Python-falsy, so the fill
guard (line 141) rejects it and the final latitude is absent. -/
theorem merge_order_dependent_cex :
    (dictGet (processCsv [rowLatZeroA, rowNameOnlyA]).organisations "A").map
      Organisation.latitude = some (some 0) ∧
    (dictGet (processCsv [rowNameOnlyA, rowLatZeroA]).organisations "A").map
      Organisation.latitude = some none ∧
    dictGet (processCsv [rowLatZeroA, rowNameOnlyA]).organisations "A" ≠
      dictGet (processCsv [rowNameOnlyA, rowLatZeroA]).organisations "A" ∧
    (∀ r ∈ [rowLatZeroA, rowNameOnlyA], processedP r = true ∧ rowOrgId r = "A") ∧
    suppliesCount [rowLatZeroA, rowNameOnlyA] rowOrgName ≤ 1 ∧
    suppliesCount [rowLatZeroA, rowNameOnlyA] rowBillingStreet ≤ 1 ∧
    suppliesCount [rowLatZeroA, rowNameOnlyA] rowBillingCity ≤ 1 ∧
    suppliesCount [rowLatZeroA, rowNameOnlyA] rowBillingStateProvince ≤ 1 ∧
    suppliesCount [rowLatZeroA, rowNameOnlyA] rowBillingZip ≤ 1 ∧
    suppliesCount [rowLatZeroA, rowNameOnlyA] rowFormattedAddress ≤ 1 ∧
    suppliesCount [rowLatZeroA, rowNameOnlyA] rowLat ≤ 1 ∧
    suppliesCount [rowLatZeroA, rowNameOnlyA] rowLon ≤ 1 := by
  decide

/-- C7 (amended): for rows sharing one normalized organisation id, if each
fillable field is supplied by at most one row AND every supplied coordinate is
nonzero (zero is Python-falsy — the exemption the counterexample above forces),
the final Organisation record is the same for every processing order. -/
theorem merge_order_independent (rows1 rows2 : List Row) (k : String)
    (hperm : rows1.Perm rows2)
    (hall : ∀ r ∈ rows1, processedP r = true ∧ rowOrgId r = k)
    (hcoord : ∀ r ∈ rows1, coordClean r)
    (hs1 : suppliesCount rows1 rowOrgName ≤ 1)
    (hs2 : suppliesCount rows1 rowBillingStreet ≤ 1)
    (hs3 : suppliesCount rows1 rowBillingCity ≤ 1)
    (hs4 : suppliesCount rows1 rowBillingStateProvince ≤ 1)
    (hs5 : suppliesCount rows1 rowBillingZip ≤ 1)
    (hs6 : suppliesCount rows1 rowFormattedAddress ≤ 1)
    (hs7 : suppliesCount rows1 rowLat ≤ 1)
    (hs8 : suppliesCount rows1 rowLon ≤ 1) :
    dictGet (processCsv rows1).organisations k =
      dictGet (processCsv rows2).organisations k := by
  have hall2 : ∀ r ∈ rows2, processedP r = true ∧ rowOrgId r = k :=
    fun r hr => hall r (hperm.mem_iff.mpr hr)
  have hcoord2 : ∀ r ∈ rows2, coordClean r :=
    fun r hr => hcoord r (hperm.mem_iff.mpr hr)
  simp only [processCsv]
  rw [dictGet_foldl_orgs rows1 initState k hall, dictGet_foldl_orgs rows2 initState k hall2]
  show rows1.foldl orgAccStep none = rows2.foldl orgAccStep none
  cases rows1 with
  | nil =>
    rw [← hperm.nil_eq]
  | cons r rest =>
    cases rows2 with
    | nil =>
      exact absurd hperm.eq_nil (by simp)
    | cons r2 rest2 =>
      rw [orgAccStep_fold_none k r rest (hall r (List.mem_cons_self r rest)).2
        (hcoord r (List.mem_cons_self r rest))
        (fun x hx => hcoord x (List.mem_cons_of_mem r hx))]
      rw [orgAccStep_fold_none k r2 rest2 (hall2 r2 (List.mem_cons_self r2 rest2)).2
        (hcoord2 r2 (List.mem_cons_self r2 rest2))
        (fun x hx => hcoord2 x (List.mem_cons_of_mem r2 hx))]
      simp only [mergedOrgOf]
      rw [findSome?_perm_subsingleton rowOrgName hperm hs1,
        findSome?_perm_subsingleton rowBillingStreet hperm hs2,
        findSome?_perm_subsingleton rowBillingCity hperm hs3,
        findSome?_perm_subsingleton rowBillingStateProvince hperm hs4,
        findSome?_perm_subsingleton rowBillingZip hperm hs5,
        findSome?_perm_subsingleton rowFormattedAddress hperm hs6,
        findSome?_perm_subsingleton rowLat hperm hs7,
        findSome?_perm_subsingleton rowLon hperm hs8]

def rowLatFiveA : Row := { organisationIdCol := "A", latitudeCol := "5" }

def rowNameOnlyA2 : Row := { organisationIdCol := "A", organisationNameCol := "N" }

/-- Witness for C7 (amended): swapping a latitude-supplying row (nonzero) and a
name-supplying row leaves the final record unchanged. -/
theorem merge_order_independent_witness :
    dictGet (processCsv [rowLatFiveA, rowNameOnlyA2]).organisations "A" =
      dictGet (processCsv [rowNameOnlyA2, rowLatFiveA]).organisations "A" :=
  merge_order_independent [rowLatFiveA, rowNameOnlyA2] [rowNameOnlyA2, rowLatFiveA] "A"
    (List.Perm.swap rowNameOnlyA2 rowLatFiveA []) (by decide) (by decide) (by decide)
    (by decide) (by decide) (by decide) (by decide) (by decide) (by decide) (by decide)

/-! ### Claim C6: carry-forward resolution -/

theorem startsDetailed_iff (r : Row) :
    startsDetailedGroup r = true ↔
      (rowOrgIdRaw r ≠ "" ∧ detailedRaw r ≠ "" ∧ detailedRaw r ≠ "Subtotal") := by
  simp [startsDetailedGroup, processedP]

theorem startsSector_iff (r : Row) :
    startsSectorGroup r = true ↔ (rowOrgIdRaw r ≠ "" ∧ rowSectorRaw r ≠ "") := by
  simp [startsSectorGroup, processedP]

theorem processRow_slot_detailed (st : NormState) (r : Row) :
    (processRow st r).current_detailed_item_id =
      if startsDetailedGroup r = true then some (detailedRaw r)
      else st.current_detailed_item_id := by
  by_cases hp : rowOrgIdRaw r = ""
  · rw [processRow_skip st r hp, if_neg]
    simp [startsDetailed_iff, hp]
  · rw [processRow_run st r hp, stepBody_current_detailed]
    by_cases hc : detailedRaw r ≠ "" ∧ detailedRaw r ≠ "Subtotal"
    · rw [if_pos hc, if_pos ((startsDetailed_iff r).mpr ⟨hp, hc.1, hc.2⟩)]
    · rw [if_neg hc, if_neg (fun hs => hc ⟨((startsDetailed_iff r).mp hs).2.1,
        ((startsDetailed_iff r).mp hs).2.2⟩)]

theorem processRow_slot_sector (st : NormState) (r : Row) :
    (processRow st r).current_sector_mapping_id =
      if startsSectorGroup r = true then some (rowSectorRaw r)
      else st.current_sector_mapping_id := by
  by_cases hp : rowOrgIdRaw r = ""
  · rw [processRow_skip st r hp, if_neg]
    simp [startsSector_iff, hp]
  · rw [processRow_run st r hp, stepBody_current_sector]
    by_cases hc : rowSectorRaw r ≠ ""
    · rw [if_pos hc, if_pos ((startsSector_iff r).mpr ⟨hp, hc⟩)]
    · rw [if_neg hc, if_neg (fun hs => hc ((startsSector_iff r).mp hs).2)]

theorem slot_detailed_foldl (rows : List Row) (st : NormState) :
    (rows.foldl processRow st).current_detailed_item_id =
      match rows.reverse.find? startsDetailedGroup with
      | some r2 => some (detailedRaw r2)
      | none => st.current_detailed_item_id := by
  induction rows generalizing st with
  | nil => rfl
  | cons r rest ih =>
    show (rest.foldl processRow (processRow st r)).current_detailed_item_id = _
    rw [ih (processRow st r), List.reverse_cons, List.find?_append]
    rcases hf : rest.reverse.find? startsDetailedGroup with _ | r2
    · simp only [hf, Option.none_or]
      rw [processRow_slot_detailed, List.find?_singleton]
      cases hr : startsDetailedGroup r <;> simp [hr]
    · simp only [hf, Option.or_some]

theorem slot_sector_foldl (rows : List Row) (st : NormState) :
    (rows.foldl processRow st).current_sector_mapping_id =
      match rows.reverse.find? startsSectorGroup with
      | some r2 => some (rowSectorRaw r2)
      | none => st.current_sector_mapping_id := by
  induction rows generalizing st with
  | nil => rfl
  | cons r rest ih =>
    show (rest.foldl processRow (processRow st r)).current_sector_mapping_id = _
    rw [ih (processRow st r), List.reverse_cons, List.find?_append]
    rcases hf : rest.reverse.find? startsSectorGroup with _ | r2
    · simp only [hf, Option.none_or]
      rw [processRow_slot_sector, List.find?_singleton]
      cases hr : startsSectorGroup r <;> simp [hr]
    · simp only [hf, Option.or_some]

def rowSecOpen : Row := { organisationIdCol := "A", sectorMappingIdCol := "S1" }

def rowSecSub : Row := { organisationIdCol := "A", sectorMappingIdCol := "Subtotal" }

def rowSecBlank : Row := { organisationIdCol := "A", organisationCapabilityCol := "C" }

/-- C6 counterexample: for the sector column the rows carry `"S1"`, then the
sentinel `"Subtotal"`, then blank.  The claim says the blank row resolves to the
nearest preceding non-blank NON-SENTINEL value, `"S1"`; the code has no sentinel
check for the sector column (line 67), so the blank row resolves to
`"Subtotal"`. -/
theorem sector_sentinel_carry_cex :
    ((processCsv [rowSecOpen, rowSecSub, rowSecBlank]).capabilities.map
      Capability.sectorMappingId) = [some "Subtotal"] ∧
    (some "Subtotal" : Option String) ≠ some "S1" := by
  decide

/-- C6 (amended): a processed row whose grouped cells are blank takes its
effective detailed-item id from the nearest preceding processed row with a
non-blank, non-sentinel detailed-item cell, and its effective sector id from the
nearest preceding processed row with a non-blank sector cell (for the sector
column the `"Subtotal"` sentinel is NOT excluded); each is null when no such row
exists.  The appended Capability stores exactly these resolved values. -/
theorem carry_forward_resolution (rows : List Row) (r : Row)
    (hp : processedP r = true) (hd : detailedRaw r = "") (hs : rowSectorRaw r = "")
    (hc : rowCapLabel r ≠ "") :
    ∃ cap, (processCsv (rows ++ [r])).capabilities =
        (processCsv rows).capabilities ++ [cap] ∧
      cap.detailedItemId = (match rows.reverse.find? startsDetailedGroup with
        | some r2 => some (detailedRaw r2)
        | none => none) ∧
      cap.sectorMappingId = (match rows.reverse.find? startsSectorGroup with
        | some r2 => some (rowSectorRaw r2)
        | none => none) := by
  have hp2 : rowOrgIdRaw r ≠ "" := by simpa [processedP] using hp
  rw [processCsv_append_one, processRow_run _ _ hp2]
  refine ⟨mkCapability r (stepBody (processCsv rows) r).current_detailed_item_id
      (stepBody (processCsv rows) r).current_sector_mapping_id, ?_, ?_, ?_⟩
  · rw [stepBody_capabilities, if_pos ⟨rowOrgId_ne_empty r hp2, hc⟩]
  · show (if optTruthy (stepBody (processCsv rows) r).current_detailed_item_id
        then (stepBody (processCsv rows) r).current_detailed_item_id else none) = _
    have hslot : (stepBody (processCsv rows) r).current_detailed_item_id =
        (processCsv rows).current_detailed_item_id := by
      rw [stepBody_current_detailed, if_neg (by simp [hd])]
    rw [hslot, show (processCsv rows).current_detailed_item_id =
        match rows.reverse.find? startsDetailedGroup with
        | some r2 => some (detailedRaw r2)
        | none => initState.current_detailed_item_id from slot_detailed_foldl rows initState]
    rcases hf : rows.reverse.find? startsDetailedGroup with _ | r2 <;> simp only [hf]
    · simp [optTruthy, initState]
    · have hne : detailedRaw r2 ≠ "" := ((startsDetailed_iff r2).mp (List.find?_some hf)).2.1
      simp [optTruthy, hne]
  · show (if optTruthy (stepBody (processCsv rows) r).current_sector_mapping_id
        then (stepBody (processCsv rows) r).current_sector_mapping_id else none) = _
    have hslot : (stepBody (processCsv rows) r).current_sector_mapping_id =
        (processCsv rows).current_sector_mapping_id := by
      rw [stepBody_current_sector, if_neg (by simp [hs])]
    rw [hslot, show (processCsv rows).current_sector_mapping_id =
        match rows.reverse.find? startsSectorGroup with
        | some r2 => some (rowSectorRaw r2)
        | none => initState.current_sector_mapping_id from slot_sector_foldl rows initState]
    rcases hf : rows.reverse.find? startsSectorGroup with _ | r2 <;> simp only [hf]
    · simp [optTruthy, initState]
    · have hne : rowSectorRaw r2 ≠ "" := ((startsSector_iff r2).mp (List.find?_some hf)).2
      simp [optTruthy, hne]

def rowCfOpen : Row :=
  { organisationIdCol := "O", detailedItemIdCol := "A", detailedItemNameCol := "Foo",
    sectorMappingIdCol := "SEC1", sectorNameCol := "SN" }

def rowCfBlank : Row := { organisationIdCol := "O", organisationCapabilityCol := "c2" }

/-- Witness for C6 (amended): a blank row after the group opener resolves both
grouped columns to the opener's values. -/
theorem carry_forward_resolution_witness :
    ∃ cap, (processCsv ([rowCfOpen] ++ [rowCfBlank])).capabilities =
        (processCsv [rowCfOpen]).capabilities ++ [cap] ∧
      cap.detailedItemId = (match [rowCfOpen].reverse.find? startsDetailedGroup with
        | some r2 => some (detailedRaw r2)
        | none => none) ∧
      cap.sectorMappingId = (match [rowCfOpen].reverse.find? startsSectorGroup with
        | some r2 => some (rowSectorRaw r2)
        | none => none) :=
  carry_forward_resolution [rowCfOpen] rowCfBlank (by decide) (by decide) (by decide)
    (by decide)

end ICN
